import Mathlib

/-!
Shallow embedding of `src/packages/core/src/framebuffer/Framebuffer.js`
(the `Framebuffer` class of pixi.js) and proofs about it.

Numbers passed to the JS API are modelled as rationals (`ℚ`); the stored
`width`/`height` are integers (`ℤ`) because the source always stores a
`Math.ceil` result.  The dirty counters start at 0 and are only ever
incremented, so they are `ℕ`.  A JS array with holes is a
`List (Option BaseTexture)` where `none` is a hole.  An operation that can
throw a `TypeError` returns, besides the (partially) mutated state, a `Bool`
that is `false` when the exception was raised; mutations performed before
the throwing statement are kept, as in JS.
-/

/-- Scale modes from the external `@pixi/constants` module (`SCALE_MODES`). -/
inductive ScaleMode where
  | nearest
  | linear
  deriving DecidableEq, Repr

/-- Pixel formats from the external `@pixi/constants` module (`FORMATS`);
only the ones the framebuffer code mentions. -/
inductive TexFormat where
  | rgba
  | depthComponent
  deriving DecidableEq, Repr

/-- Component types from the external `@pixi/constants` module (`TYPES`);
only the ones the framebuffer code mentions. -/
inductive TexType where
  | unsignedByte
  | unsignedShort
  deriving DecidableEq, Repr

/-- Modelled from the spec: the external `Surface` collaborator
(`BaseTexture` in the source, which lives outside `src/`).  Per spec section 6
it carries a `resolution`, dimensions, and the construction parameters
`scaleMode`, `mipmap`, pixel `format` and component `type`; `hasDepthResource`
records that it was built over a `DepthResource`.  `destroyed` records that
its destruction was requested. -/
structure BaseTexture where
  resolution : ℚ
  width : ℚ
  height : ℚ
  scaleMode : ScaleMode
  mipmap : Bool
  texFormat : TexFormat
  texType : TexType
  hasDepthResource : Bool
  destroyed : Bool
  deriving DecidableEq, Repr

/-- Modelled from the spec: `Surface.resize(logicalWidth, logicalHeight)`
"updates its own backing dimensions" (spec section 6); the source calls it
`setSize`. -/
def BaseTexture.setSize (t : BaseTexture) (w h : ℚ) : BaseTexture :=
  { t with width := w, height := h }

/-- Modelled from the spec: destroying a surface "releases its underlying
storage" (spec section 4.6); we record the request in the `destroyed` flag. -/
def BaseTexture.destroy (t : BaseTexture) : BaseTexture :=
  { t with destroyed := true }

/-- `Math.ceil` on a (finite) JS number (`Rat.ceil` is the computable
ceiling; `jsMathCeil_eq_ceil` below identifies it with `⌈q⌉`). -/
def jsMathCeil (q : ℚ) : ℤ := q.ceil

/-- JS `x || d` for a numeric-or-omitted `x` (`none` models an omitted /
`undefined` argument, falsy like `0`). -/
def jsOr (x : Option ℚ) (d : ℚ) : ℚ :=
  match x with
  | none => d
  | some v => if v = 0 then d else v

/-- The state of `Framebuffer`.  `glFramebuffers` is the native-binding
cache, initialised to the empty object and never touched by this class;
we model it by its set of keys.  The `disposeRunner` collaborator is not
modelled: no operation considered here reads or writes it. -/
structure Framebuffer where
  width : ℤ
  height : ℤ
  stencil : Bool
  depth : Bool
  dirtyId : ℕ
  dirtyFormat : ℕ
  dirtySize : ℕ
  depthTexture : Option BaseTexture
  colorTextures : List (Option BaseTexture)
  glFramebuffers : List String
  deriving DecidableEq, Repr

/-- `new Framebuffer(width, height)`:
`this.width = Math.ceil(width || 100); this.height = Math.ceil(height || 100);`
and all the other fields as initialised by the constructor. -/
def Framebuffer.create (width height : Option ℚ) : Framebuffer :=
  { width := jsMathCeil (jsOr width 100)
    height := jsMathCeil (jsOr height 100)
    stencil := false
    depth := false
    dirtyId := 0
    dirtyFormat := 0
    dirtySize := 0
    depthTexture := none
    colorTextures := []
    glFramebuffers := [] }

/-- JS sparse-array assignment `arr[index] = v`: writing past the end pads
the array with holes. -/
def jsArraySet (l : List (Option BaseTexture)) (index : ℕ) (v : BaseTexture) :
    List (Option BaseTexture) :=
  match l, index with
  | [], 0 => [some v]
  | [], n + 1 => none :: jsArraySet [] n v
  | _ :: xs, 0 => some v :: xs
  | x :: xs, n + 1 => x :: jsArraySet xs n v

/-- The default colour texture built by `addColorTexture` when no texture is
supplied: `new BaseTexture(null, { scaleMode: NEAREST, resolution: 1,
mipmap: false, width: this.width, height: this.height })`.  (The `BaseTexture`
constructor itself is modelled from the spec, section 6.) -/
def defaultColorTexture (fb : Framebuffer) : BaseTexture :=
  { resolution := 1
    width := (fb.width : ℚ)
    height := (fb.height : ℚ)
    scaleMode := .nearest
    mipmap := false
    texFormat := .rgba
    texType := .unsignedByte
    hasDepthResource := false
    destroyed := false }

/-- The default depth texture built by `addDepthTexture` when no texture is
supplied: `new BaseTexture(new DepthResource(null, {width, height}),
{ scaleMode: NEAREST, resolution: 1, width, height, mipmap: false,
format: DEPTH_COMPONENT, type: UNSIGNED_SHORT })`. -/
def defaultDepthTexture (fb : Framebuffer) : BaseTexture :=
  { resolution := 1
    width := (fb.width : ℚ)
    height := (fb.height : ℚ)
    scaleMode := .nearest
    mipmap := false
    texFormat := .depthComponent
    texType := .unsignedShort
    hasDepthResource := true
    destroyed := false }

/-- `addColorTexture(index = 0, texture)`.  In JS the method mutates `this`
and returns `this`; here the returned state is both. -/
def Framebuffer.addColorTexture (fb : Framebuffer) (index : ℕ)
    (texture : Option BaseTexture) : Framebuffer :=
  { fb with
    colorTextures :=
      jsArraySet fb.colorTextures index (texture.getD (defaultColorTexture fb))
    dirtyId := fb.dirtyId + 1
    dirtyFormat := fb.dirtyFormat + 1 }

/-- `addDepthTexture(texture)`.  Mutates `this` and returns `this`. -/
def Framebuffer.addDepthTexture (fb : Framebuffer)
    (texture : Option BaseTexture) : Framebuffer :=
  { fb with
    depthTexture := some (texture.getD (defaultDepthTexture fb))
    dirtyId := fb.dirtyId + 1
    dirtyFormat := fb.dirtyFormat + 1 }

/-- `enableDepth()`.  Mutates `this` and returns `this`. -/
def Framebuffer.enableDepth (fb : Framebuffer) : Framebuffer :=
  { fb with
    depth := true
    dirtyId := fb.dirtyId + 1
    dirtyFormat := fb.dirtyFormat + 1 }

/-- `enableStencil()`.  Mutates `this` and returns `this`. -/
def Framebuffer.enableStencil (fb : Framebuffer) : Framebuffer :=
  { fb with
    stencil := true
    dirtyId := fb.dirtyId + 1
    dirtyFormat := fb.dirtyFormat + 1 }

/-- Identifies the receiver of a `setSize` call made during `resize`. -/
inductive CallTarget where
  | color (i : ℕ)
  | depthTex
  deriving DecidableEq, Repr

/-- One observed `texture.setSize(w, h)` invocation. -/
structure SetSizeCall where
  target : CallTarget
  w : ℚ
  h : ℚ
  deriving DecidableEq, Repr

/-- The `for` loop of `resize` over `this.colorTextures`, starting at index
`i`.  For each entry it reads `texture.resolution` and calls
`texture.setSize(width / resolution, height / resolution)`.  A hole
(`none`) makes the property read throw a `TypeError`: the loop stops there,
later entries are left untouched, and the third component is `false`. -/
def resizeColors (wc hc : ℤ) (i : ℕ) :
    List (Option BaseTexture) →
      List (Option BaseTexture) × List SetSizeCall × Bool
  | [] => ([], [], true)
  | none :: rest => (none :: rest, [], false)
  | some t :: rest =>
      let nw := (wc : ℚ) / t.resolution
      let nh := (hc : ℚ) / t.resolution
      let r := resizeColors wc hc (i + 1) rest
      (some (t.setSize nw nh) :: r.1, ⟨.color i, nw, nh⟩ :: r.2.1, r.2.2)

/-- `resize(width, height)`.  Returns the resulting state, the list of
`setSize` calls made on attached textures, and `true` unless a `TypeError`
was thrown while iterating the colour textures (in which case the counter
and dimension updates, which precede the loop, are kept, and the depth
texture is never reached). -/
def Framebuffer.resize (fb : Framebuffer) (width height : ℚ) :
    Framebuffer × List SetSizeCall × Bool :=
  let wc := jsMathCeil width
  let hc := jsMathCeil height
  if wc = fb.width ∧ hc = fb.height then (fb, [], true)
  else
    let r := resizeColors wc hc 0 fb.colorTextures
    let fb1 : Framebuffer :=
      { fb with
        width := wc
        height := hc
        dirtyId := fb.dirtyId + 1
        dirtySize := fb.dirtySize + 1
        colorTextures := r.1 }
    if r.2.2 then
      match fb.depthTexture with
      | some d =>
          let nw := (wc : ℚ) / d.resolution
          let nh := (hc : ℚ) / d.resolution
          ({ fb1 with depthTexture := some (d.setSize nw nh) },
            r.2.1 ++ [⟨.depthTex, nw, nh⟩], true)
      | none => (fb1, r.2.1, true)
    else (fb1, r.2.1, false)

/-- `destroyDepthTexture()`.  Also returns the texture whose destruction was
requested (after the `destroy()` call), so that the request is observable. -/
def Framebuffer.destroyDepthTexture (fb : Framebuffer) :
    Framebuffer × Option BaseTexture :=
  match fb.depthTexture with
  | some t =>
      ({ fb with
          depthTexture := none
          dirtyId := fb.dirtyId + 1
          dirtyFormat := fb.dirtyFormat + 1 }, some t.destroy)
  | none => (fb, none)

/-- The operations of the public mutation API. -/
inductive Op where
  | addColor (index : ℕ) (texture : Option BaseTexture)
  | addDepth (texture : Option BaseTexture)
  | enableDepth
  | enableStencil
  | resize (w h : ℚ)
  | destroyDepth
  deriving DecidableEq, Repr

/-- Apply one operation (keeping only the resulting state). -/
def applyOp (fb : Framebuffer) : Op → Framebuffer
  | .addColor i t => fb.addColorTexture i t
  | .addDepth t => fb.addDepthTexture t
  | .enableDepth => fb.enableDepth
  | .enableStencil => fb.enableStencil
  | .resize w h => (fb.resize w h).1
  | .destroyDepth => fb.destroyDepthTexture.1

/-- Apply a sequence of operations. -/
def applyOps (fb : Framebuffer) (ops : List Op) : Framebuffer :=
  ops.foldl applyOp fb

/-- The textures of the colour-texture array that precede its first hole
(during `resize`, exactly these receive a `setSize` call before the
`TypeError` at the hole, if any). -/
def leadingPresent : List (Option BaseTexture) → List BaseTexture
  | [] => []
  | none :: _ => []
  | some t :: rest => t :: leadingPresent rest

/-- The `setSize` calls `resize` makes on a run of present colour textures
starting at index `i`, after having stored the new dimensions `wc`, `hc`. -/
def colorCalls (wc hc : ℤ) (i : ℕ) : List BaseTexture → List SetSizeCall
  | [] => []
  | t :: rest =>
      ⟨.color i, (wc : ℚ) / t.resolution, (hc : ℚ) / t.resolution⟩ ::
        colorCalls wc hc (i + 1) rest

/-- The `setSize` call `resize` makes on the depth texture, if present. -/
def depthResizeCalls (wc hc : ℤ) : Option BaseTexture → List SetSizeCall
  | none => []
  | some d =>
      [⟨.depthTex, (wc : ℚ) / d.resolution, (hc : ℚ) / d.resolution⟩]

/-- The embedded `Math.ceil` agrees with the mathematical ceiling. -/
theorem jsMathCeil_eq_ceil (q : ℚ) : jsMathCeil q = ⌈q⌉ := by
  unfold jsMathCeil Rat.ceil
  split
  · next h =>
      have hq : ((q.num : ℚ)) = q := by
        conv_rhs => rw [← Rat.num_div_den q]
        rw [h]
        simp
      rw [← hq, Int.ceil_intCast]
      exact Rat.num_intCast _
  · next h =>
      have hfl : q.num / (q.den : ℤ) = ⌊q⌋ := by rw [Rat.floor_def]
      rw [hfl, eq_comm, Int.ceil_eq_iff]
      constructor
      · push_cast
        have hle : ((⌊q⌋ : ℚ)) ≤ q := Int.floor_le q
        have hne : ((⌊q⌋ : ℚ)) ≠ q := by
          intro heq
          apply h
          rw [← heq]
          exact Rat.den_intCast _
        have := lt_of_le_of_ne hle hne
        linarith
      · push_cast
        have := Int.lt_floor_add_one q
        linarith

theorem jsMathCeil_pos {q : ℚ} (hq : 0 < q) : 0 < jsMathCeil q := by
  rw [jsMathCeil_eq_ceil]
  exact Int.ceil_pos.mpr hq

/-- Writing at index `i` makes the entry at `i` present with the written
value, whatever the previous length. -/
theorem jsArraySet_getElem? (l : List (Option BaseTexture)) (i : ℕ)
    (v : BaseTexture) : (jsArraySet l i v)[i]? = some (some v) := by
  induction i generalizing l with
  | zero => cases l <;> simp [jsArraySet]
  | succ n ih =>
      cases l with
      | nil => simpa [jsArraySet] using ih []
      | cons x xs => simpa [jsArraySet] using ih xs

/-- The colour loop of `resize` finishes without a `TypeError` exactly when
the array has no hole. -/
theorem resizeColors_ok_iff (wc hc : ℤ) (i : ℕ)
    (l : List (Option BaseTexture)) :
    (resizeColors wc hc i l).2.2 = true ↔ (none : Option BaseTexture) ∉ l := by
  induction l generalizing i with
  | nil => simp [resizeColors]
  | cons x rest ih =>
      cases x with
      | none => simp [resizeColors]
      | some t => simp [resizeColors, ih (i + 1)]

/-- The colour loop of `resize` calls `setSize` exactly on the present
textures preceding the first hole, in order. -/
theorem resizeColors_calls_eq (wc hc : ℤ) (i : ℕ)
    (l : List (Option BaseTexture)) :
    (resizeColors wc hc i l).2.1 = colorCalls wc hc i (leadingPresent l) := by
  induction l generalizing i with
  | nil => rfl
  | cons x rest ih =>
      cases x with
      | none => rfl
      | some t => simp [resizeColors, colorCalls, leadingPresent, ih (i + 1)]

/-- On a hole-free array, every present texture receives its
resolution-scaled `setSize` call. -/
theorem resizeColors_mem_calls (wc hc : ℤ) :
    ∀ (l : List (Option BaseTexture)),
      (none : Option BaseTexture) ∉ l →
      ∀ (i j : ℕ) (t : BaseTexture), l[j]? = some (some t) →
        (⟨.color (i + j), (wc : ℚ) / t.resolution, (hc : ℚ) / t.resolution⟩ :
          SetSizeCall) ∈ (resizeColors wc hc i l).2.1 := by
  intro l
  induction l with
  | nil => intro _ i j t h; simp at h
  | cons x rest ih =>
      intro hfull i j t h
      cases x with
      | none => exact absurd (List.mem_cons_self _ _) hfull
      | some u =>
          have hfull' : (none : Option BaseTexture) ∉ rest := fun hm =>
            hfull (List.mem_cons_of_mem _ hm)
          cases j with
          | zero =>
              have hu : u = t := by simpa using h
              subst hu
              simp [resizeColors]
          | succ j =>
              have hmem := ih hfull' (i + 1) j t (by simpa using h)
              have harith : i + 1 + j = i + (j + 1) := by omega
              rw [harith] at hmem
              simp only [resizeColors, List.mem_cons]
              exact Or.inr hmem

/-- `resize` with unchanged (ceiled) dimensions is a complete no-op. -/
theorem resize_eq_of_eq (fb : Framebuffer) (w h : ℚ)
    (hc : jsMathCeil w = fb.width ∧ jsMathCeil h = fb.height) :
    fb.resize w h = (fb, [], true) := by
  unfold Framebuffer.resize
  rw [if_pos hc]

/-- Characterisation of `resize` when the ceiled dimensions differ from the
current ones: dimensions and the id/size counters are updated first, then
the colour loop runs, and the depth texture is resized only if the colour
loop finished without a `TypeError`. -/
theorem resize_ne_spec (fb : Framebuffer) (w h : ℚ)
    (hne : ¬(jsMathCeil w = fb.width ∧ jsMathCeil h = fb.height)) :
    fb.resize w h =
      ({ fb with
          width := jsMathCeil w
          height := jsMathCeil h
          dirtyId := fb.dirtyId + 1
          dirtySize := fb.dirtySize + 1
          colorTextures :=
            (resizeColors (jsMathCeil w) (jsMathCeil h) 0 fb.colorTextures).1
          depthTexture :=
            if (resizeColors (jsMathCeil w) (jsMathCeil h) 0
                fb.colorTextures).2.2 = true then
              fb.depthTexture.map fun d =>
                d.setSize ((jsMathCeil w : ℚ) / d.resolution)
                  ((jsMathCeil h : ℚ) / d.resolution)
            else fb.depthTexture },
        (resizeColors (jsMathCeil w) (jsMathCeil h) 0 fb.colorTextures).2.1 ++
          (if (resizeColors (jsMathCeil w) (jsMathCeil h) 0
              fb.colorTextures).2.2 = true then
            depthResizeCalls (jsMathCeil w) (jsMathCeil h) fb.depthTexture
          else []),
        (resizeColors (jsMathCeil w) (jsMathCeil h) 0 fb.colorTextures).2.2) := by
  unfold Framebuffer.resize
  rw [if_neg hne]
  cases hok : (resizeColors (jsMathCeil w) (jsMathCeil h) 0
      fb.colorTextures).2.2 <;>
    cases hd : fb.depthTexture <;>
      simp [hok, hd, depthResizeCalls, BaseTexture.setSize]

/-- The dirty counters of `resize`: either the short-circuit fired and
nothing changed, or `dirtyId` and `dirtySize` grew by 1 with `dirtyFormat`
untouched. -/
theorem resize_dirty (fb : Framebuffer) (w h : ℚ) :
    ((fb.resize w h).1.dirtyId = fb.dirtyId ∧
     (fb.resize w h).1.dirtyFormat = fb.dirtyFormat ∧
     (fb.resize w h).1.dirtySize = fb.dirtySize) ∨
    ((fb.resize w h).1.dirtyId = fb.dirtyId + 1 ∧
     (fb.resize w h).1.dirtyFormat = fb.dirtyFormat ∧
     (fb.resize w h).1.dirtySize = fb.dirtySize + 1) := by
  by_cases hc : jsMathCeil w = fb.width ∧ jsMathCeil h = fb.height
  · left
    rw [resize_eq_of_eq fb w h hc]
    exact ⟨rfl, rfl, rfl⟩
  · right
    rw [resize_ne_spec fb w h hc]
    exact ⟨rfl, rfl, rfl⟩

/-- The dirty counters of `destroyDepthTexture`: either no depth texture and
nothing changed, or `dirtyId` and `dirtyFormat` grew by 1 with `dirtySize`
untouched. -/
theorem destroyDepthTexture_dirty (fb : Framebuffer) :
    (fb.destroyDepthTexture.1.dirtyId = fb.dirtyId ∧
     fb.destroyDepthTexture.1.dirtyFormat = fb.dirtyFormat ∧
     fb.destroyDepthTexture.1.dirtySize = fb.dirtySize) ∨
    (fb.destroyDepthTexture.1.dirtyId = fb.dirtyId + 1 ∧
     fb.destroyDepthTexture.1.dirtyFormat = fb.dirtyFormat + 1 ∧
     fb.destroyDepthTexture.1.dirtySize = fb.dirtySize) := by
  cases hd : fb.depthTexture with
  | none => left; simp [Framebuffer.destroyDepthTexture, hd]
  | some t => right; simp [Framebuffer.destroyDepthTexture, hd]

/-- One operation never decreases a counter, and whenever it increases
`dirtyFormat` or `dirtySize` it also increases `dirtyId`. -/
theorem applyOp_dirty (fb : Framebuffer) (op : Op) :
    (fb.dirtyId ≤ (applyOp fb op).dirtyId ∧
     fb.dirtyFormat ≤ (applyOp fb op).dirtyFormat ∧
     fb.dirtySize ≤ (applyOp fb op).dirtySize) ∧
    ((fb.dirtyFormat < (applyOp fb op).dirtyFormat ∨
      fb.dirtySize < (applyOp fb op).dirtySize) →
      fb.dirtyId < (applyOp fb op).dirtyId) := by
  cases op with
  | addColor i t =>
      simp only [applyOp, Framebuffer.addColorTexture]
      omega
  | addDepth t =>
      simp only [applyOp, Framebuffer.addDepthTexture]
      omega
  | enableDepth =>
      simp only [applyOp, Framebuffer.enableDepth]
      omega
  | enableStencil =>
      simp only [applyOp, Framebuffer.enableStencil]
      omega
  | resize w h =>
      simp only [applyOp]
      rcases resize_dirty fb w h with ⟨h1, h2, h3⟩ | ⟨h1, h2, h3⟩ <;>
        rw [h1, h2, h3] <;> omega
  | destroyDepth =>
      simp only [applyOp]
      rcases destroyDepthTexture_dirty fb with ⟨h1, h2, h3⟩ | ⟨h1, h2, h3⟩ <;>
        rw [h1, h2, h3] <;> omega

/-- Counters are monotone along any operation sequence. -/
theorem applyOps_dirty_mono (fb : Framebuffer) (ops : List Op) :
    fb.dirtyId ≤ (applyOps fb ops).dirtyId ∧
    fb.dirtyFormat ≤ (applyOps fb ops).dirtyFormat ∧
    fb.dirtySize ≤ (applyOps fb ops).dirtySize := by
  induction ops generalizing fb with
  | nil => exact ⟨le_refl _, le_refl _, le_refl _⟩
  | cons op rest ih =>
      have h1 := (applyOp_dirty fb op).1
      have h2 := ih (applyOp fb op)
      exact ⟨le_trans h1.1 h2.1, le_trans h1.2.1 h2.2.1,
        le_trans h1.2.2 h2.2.2⟩

/-- C1: over every operation sequence the three counters `dirtyId`,
`dirtyFormat`, `dirtySize` are monotone non-decreasing, and any single
operation that increments `dirtyFormat` or `dirtySize` also increments
`dirtyId` in the same call. -/
theorem framebuffer_counters_monotone (fb : Framebuffer) (ops : List Op)
    (op : Op) :
    (fb.dirtyId ≤ (applyOps fb ops).dirtyId ∧
     fb.dirtyFormat ≤ (applyOps fb ops).dirtyFormat ∧
     fb.dirtySize ≤ (applyOps fb ops).dirtySize) ∧
    ((fb.dirtyFormat < (applyOp fb op).dirtyFormat ∨
      fb.dirtySize < (applyOp fb op).dirtySize) →
      fb.dirtyId < (applyOp fb op).dirtyId) :=
  ⟨applyOps_dirty_mono fb ops, (applyOp_dirty fb op).2⟩

/-- Witness for C1 at a concrete state and operation. -/
theorem framebuffer_counters_monotone_witness :
    (Framebuffer.create none none).dirtyFormat <
      (applyOp (Framebuffer.create none none) Op.enableDepth).dirtyFormat ∧
    (Framebuffer.create none none).dirtyId <
      (applyOp (Framebuffer.create none none) Op.enableDepth).dirtyId :=
  ⟨by decide,
   (framebuffer_counters_monotone (Framebuffer.create none none) []
      Op.enableDepth).2 (Or.inl (by decide))⟩

/-- C6: construction always succeeds and yields the documented initial
state: `width`/`height` are the ceiling of the argument with 100 substituted
for a falsy (omitted or zero) input, the flags are false, the three counters
are 0, there are no attachments, and the native-binding cache is empty. -/
theorem create_initial_state (w h : Option ℚ) :
    ((w = none ∨ w = some 0) → (Framebuffer.create w h).width = 100) ∧
    (∀ v : ℚ, w = some v → v ≠ 0 →
      (Framebuffer.create w h).width = jsMathCeil v) ∧
    ((h = none ∨ h = some 0) → (Framebuffer.create w h).height = 100) ∧
    (∀ v : ℚ, h = some v → v ≠ 0 →
      (Framebuffer.create w h).height = jsMathCeil v) ∧
    (Framebuffer.create w h).stencil = false ∧
    (Framebuffer.create w h).depth = false ∧
    (Framebuffer.create w h).dirtyId = 0 ∧
    (Framebuffer.create w h).dirtyFormat = 0 ∧
    (Framebuffer.create w h).dirtySize = 0 ∧
    (Framebuffer.create w h).colorTextures = [] ∧
    (Framebuffer.create w h).depthTexture = none ∧
    (Framebuffer.create w h).glFramebuffers = [] := by
  refine ⟨?_, ?_, ?_, ?_, rfl, rfl, rfl, rfl, rfl, rfl, rfl, rfl⟩
  · rintro (rfl | rfl) <;> · simp [Framebuffer.create, jsOr]; decide
  · rintro v rfl hv
    simp [Framebuffer.create, jsOr, hv]
  · rintro (rfl | rfl) <;> · simp [Framebuffer.create, jsOr]; decide
  · rintro v rfl hv
    simp [Framebuffer.create, jsOr, hv]

/-- Witness for C6 at concrete falsy and non-falsy inputs. -/
theorem create_initial_state_witness :
    (Framebuffer.create (some 0) (some (-3))).width = 100 ∧
    (Framebuffer.create (some 0) (some (-3))).height = jsMathCeil (-3) :=
  ⟨(create_initial_state (some 0) (some (-3))).1 (Or.inr rfl),
   (create_initial_state (some 0) (some (-3))).2.2.2.1 (-3) rfl (by decide)⟩

/-- C7: `addColorTexture` stores the supplied texture, or a freshly built
default sized to the current width/height with resolution 1, at the given
index; `addDepthTexture` replaces the depth texture likewise; each bumps
`dirtyId` and `dirtyFormat` by exactly 1 and leaves `dirtySize` unchanged.
In this embedding the value of the call is the updated state, which models
the source returning `this` for chaining. -/
theorem addTexture_spec (fb : Framebuffer) (index : ℕ)
    (texture : Option BaseTexture) :
    (fb.addColorTexture index texture).colorTextures[index]? =
      some (some (texture.getD (defaultColorTexture fb))) ∧
    (fb.addColorTexture index texture).dirtyId = fb.dirtyId + 1 ∧
    (fb.addColorTexture index texture).dirtyFormat = fb.dirtyFormat + 1 ∧
    (fb.addColorTexture index texture).dirtySize = fb.dirtySize ∧
    (fb.addDepthTexture texture).depthTexture =
      some (texture.getD (defaultDepthTexture fb)) ∧
    (fb.addDepthTexture texture).dirtyId = fb.dirtyId + 1 ∧
    (fb.addDepthTexture texture).dirtyFormat = fb.dirtyFormat + 1 ∧
    (fb.addDepthTexture texture).dirtySize = fb.dirtySize ∧
    (defaultColorTexture fb).width = (fb.width : ℚ) ∧
    (defaultColorTexture fb).height = (fb.height : ℚ) ∧
    (defaultColorTexture fb).resolution = 1 ∧
    (defaultDepthTexture fb).width = (fb.width : ℚ) ∧
    (defaultDepthTexture fb).height = (fb.height : ℚ) ∧
    (defaultDepthTexture fb).resolution = 1 :=
  ⟨jsArraySet_getElem? fb.colorTextures index _, rfl, rfl, rfl, rfl, rfl,
    rfl, rfl, rfl, rfl, rfl, rfl, rfl, rfl⟩

/-- C8: `enableDepth` sets the depth flag, `enableStencil` the stencil flag,
and each call bumps `dirtyId` and `dirtyFormat` by exactly 1 regardless of
the previous flag value, so two successive calls bump each counter by 2. -/
theorem enable_toggles_spec (fb : Framebuffer) :
    fb.enableDepth.depth = true ∧
    fb.enableDepth.dirtyId = fb.dirtyId + 1 ∧
    fb.enableDepth.dirtyFormat = fb.dirtyFormat + 1 ∧
    fb.enableDepth.dirtySize = fb.dirtySize ∧
    fb.enableStencil.stencil = true ∧
    fb.enableStencil.dirtyId = fb.dirtyId + 1 ∧
    fb.enableStencil.dirtyFormat = fb.dirtyFormat + 1 ∧
    fb.enableStencil.dirtySize = fb.dirtySize ∧
    fb.enableDepth.enableDepth.dirtyId = fb.dirtyId + 2 ∧
    fb.enableDepth.enableDepth.dirtyFormat = fb.dirtyFormat + 2 ∧
    fb.enableStencil.enableStencil.dirtyId = fb.dirtyId + 2 ∧
    fb.enableStencil.enableStencil.dirtyFormat = fb.dirtyFormat + 2 := by
  refine ⟨rfl, rfl, rfl, rfl, rfl, rfl, rfl, rfl, ?_, ?_, ?_, ?_⟩ <;>
    simp [Framebuffer.enableDepth, Framebuffer.enableStencil]

/-- C9: `destroyDepthTexture` with no depth texture is a complete no-op and
raises no error; with one present it requests the texture's destruction,
clears the reference, bumps `dirtyId` and `dirtyFormat` by exactly 1 and
leaves `dirtySize` (and everything else) unchanged. -/
theorem destroyDepthTexture_spec (fb : Framebuffer) :
    (fb.depthTexture = none → fb.destroyDepthTexture = (fb, none)) ∧
    (∀ t : BaseTexture, fb.depthTexture = some t →
      fb.destroyDepthTexture.1.depthTexture = none ∧
      fb.destroyDepthTexture.1.dirtyId = fb.dirtyId + 1 ∧
      fb.destroyDepthTexture.1.dirtyFormat = fb.dirtyFormat + 1 ∧
      fb.destroyDepthTexture.1.dirtySize = fb.dirtySize ∧
      fb.destroyDepthTexture.1.width = fb.width ∧
      fb.destroyDepthTexture.1.height = fb.height ∧
      fb.destroyDepthTexture.1.stencil = fb.stencil ∧
      fb.destroyDepthTexture.1.depth = fb.depth ∧
      fb.destroyDepthTexture.1.colorTextures = fb.colorTextures ∧
      fb.destroyDepthTexture.2 = some t.destroy ∧
      t.destroy.destroyed = true) := by
  constructor
  · intro hnone
    simp [Framebuffer.destroyDepthTexture, hnone]
  · intro t ht
    simp [Framebuffer.destroyDepthTexture, ht, BaseTexture.destroy]

/-- A concrete owned depth texture used by witnesses. -/
def texDepthW : BaseTexture :=
  ⟨1, 100, 100, .nearest, false, .depthComponent, .unsignedShort, true, false⟩

/-- A framebuffer with the concrete depth texture attached. -/
def fbDepthW : Framebuffer :=
  (Framebuffer.create none none).addDepthTexture (some texDepthW)

/-- Witness for C9 in both the absent and the present case. -/
theorem destroyDepthTexture_spec_witness :
    (Framebuffer.create none none).depthTexture = none ∧
    (Framebuffer.create none none).destroyDepthTexture =
      (Framebuffer.create none none, none) ∧
    fbDepthW.depthTexture = some texDepthW ∧
    fbDepthW.destroyDepthTexture.1.depthTexture = none ∧
    fbDepthW.destroyDepthTexture.1.dirtyFormat = 2 :=
  ⟨rfl,
   (destroyDepthTexture_spec (Framebuffer.create none none)).1 rfl,
   rfl,
   ((destroyDepthTexture_spec fbDepthW).2 texDepthW rfl).1,
   (((destroyDepthTexture_spec fbDepthW).2 texDepthW rfl).2.2.1).trans
     (by decide)⟩

/-- C3: `resize` whose ceiled arguments equal the current dimensions is a
complete no-op: the state is returned unchanged, no `setSize` call is made
on any attached texture, and no error occurs. -/
theorem resize_noop_spec (fb : Framebuffer) (w h : ℚ)
    (hw : jsMathCeil w = fb.width) (hh : jsMathCeil h = fb.height) :
    fb.resize w h = (fb, [], true) :=
  resize_eq_of_eq fb w h ⟨hw, hh⟩

/-- A framebuffer with one default colour texture, for the C3 witness. -/
def fbNoop : Framebuffer :=
  (Framebuffer.create (some 51) (some 61)).addColorTexture 0 none

/-- Witness for C3 at a concrete state with an attached texture. -/
theorem resize_noop_spec_witness :
    jsMathCeil 51 = fbNoop.width ∧ jsMathCeil 61 = fbNoop.height ∧
    fbNoop.resize 51 61 = (fbNoop, [], true) :=
  ⟨by decide, by decide, resize_noop_spec fbNoop 51 61 (by decide) (by decide)⟩

/-- C10: `resize(0, 0)` does not substitute the constructor default of 100:
whenever the current dimensions are not already (0, 0) it stores width = 0
and height = 0 and bumps `dirtyId` and `dirtySize` like any size change. -/
theorem resize_zero_spec (fb : Framebuffer)
    (hne : ¬(fb.width = 0 ∧ fb.height = 0)) :
    (fb.resize 0 0).1.width = 0 ∧
    (fb.resize 0 0).1.height = 0 ∧
    (fb.resize 0 0).1.dirtyId = fb.dirtyId + 1 ∧
    (fb.resize 0 0).1.dirtySize = fb.dirtySize + 1 ∧
    (fb.resize 0 0).1.dirtyFormat = fb.dirtyFormat := by
  have h0 : jsMathCeil 0 = 0 := by decide
  have hne' : ¬(jsMathCeil 0 = fb.width ∧ jsMathCeil 0 = fb.height) := by
    rw [h0]
    intro hc
    exact hne ⟨hc.1.symm, hc.2.symm⟩
  rw [resize_ne_spec fb 0 0 hne']
  exact ⟨h0, h0, rfl, rfl, rfl⟩

/-- Witness for C10: a freshly constructed framebuffer (100 × 100) resized
to (0, 0) stores 0, not 100. -/
theorem resize_zero_spec_witness :
    ¬((Framebuffer.create none none).width = 0 ∧
      (Framebuffer.create none none).height = 0) ∧
    ((Framebuffer.create none none).resize 0 0).1.width = 0 ∧
    ((Framebuffer.create none none).resize 0 0).1.dirtySize = 1 :=
  ⟨by decide,
   (resize_zero_spec (Framebuffer.create none none) (by decide)).1,
   ((resize_zero_spec (Framebuffer.create none none) (by decide)).2.2.2.1).trans
     (by decide)⟩

/-- A concrete resolution-1 colour texture used by witnesses and
counterexamples. -/
def texUnit : BaseTexture :=
  ⟨1, 100, 100, .nearest, false, .rgba, .unsignedByte, false, false⟩

/-- A framebuffer whose colour-texture array has a hole: `addColorTexture`
at index 1 on a fresh instance leaves index 0 absent. -/
def fbHole : Framebuffer :=
  (Framebuffer.create (some 100) (some 100)).addColorTexture 1 (some texUnit)

/-- C2 as stated is false: on a framebuffer whose colour array has a hole,
a size-changing resize makes no `setSize` call at all — the attached surface
at index 1 is never resized, because reading `resolution` of the absent
entry at index 0 throws first. -/
theorem resize_changed_counterexample :
    fbHole.colorTextures[1]? = some (some texUnit) ∧
    ¬(jsMathCeil 200 = fbHole.width ∧ jsMathCeil 200 = fbHole.height) ∧
    (fbHole.resize 200 200).2.1 = [] ∧
    (fbHole.resize 200 200).2.2 = false := by decide

/-- C2 (amended with a hole-free colour array): a resize whose ceilings
differ stores the ceiled dimensions, bumps `dirtyId` and `dirtySize` by
exactly 1, leaves `dirtyFormat` unchanged, raises no error, and makes a
resolution-scaled `setSize` call on every attached colour texture and on
the depth texture if present. -/
theorem resize_changed_spec (fb : Framebuffer) (w2 h2 : ℚ)
    (hfull : (none : Option BaseTexture) ∉ fb.colorTextures)
    (hne : ¬(jsMathCeil w2 = fb.width ∧ jsMathCeil h2 = fb.height)) :
    (fb.resize w2 h2).1.width = jsMathCeil w2 ∧
    (fb.resize w2 h2).1.height = jsMathCeil h2 ∧
    (fb.resize w2 h2).1.dirtyId = fb.dirtyId + 1 ∧
    (fb.resize w2 h2).1.dirtySize = fb.dirtySize + 1 ∧
    (fb.resize w2 h2).1.dirtyFormat = fb.dirtyFormat ∧
    (fb.resize w2 h2).2.2 = true ∧
    (∀ (i : ℕ) (t : BaseTexture), fb.colorTextures[i]? = some (some t) →
      (⟨.color i, (jsMathCeil w2 : ℚ) / t.resolution,
        (jsMathCeil h2 : ℚ) / t.resolution⟩ : SetSizeCall) ∈
        (fb.resize w2 h2).2.1) ∧
    (∀ d : BaseTexture, fb.depthTexture = some d →
      (⟨.depthTex, (jsMathCeil w2 : ℚ) / d.resolution,
        (jsMathCeil h2 : ℚ) / d.resolution⟩ : SetSizeCall) ∈
        (fb.resize w2 h2).2.1) := by
  have hok : (resizeColors (jsMathCeil w2) (jsMathCeil h2) 0
      fb.colorTextures).2.2 = true :=
    (resizeColors_ok_iff _ _ _ _).mpr hfull
  rw [resize_ne_spec fb w2 h2 hne]
  rw [if_pos hok]
  refine ⟨rfl, rfl, rfl, rfl, rfl, hok, ?_, ?_⟩
  · intro i t ht
    apply List.mem_append_left
    have := resizeColors_mem_calls (jsMathCeil w2) (jsMathCeil h2)
      fb.colorTextures hfull 0 i t ht
    simpa using this
  · intro d hd
    apply List.mem_append_right
    simp [depthResizeCalls, hd, hok]

/-- A framebuffer with a colour texture at index 0 and a depth texture, for
the C2 witness. -/
def fbFull : Framebuffer :=
  ((Framebuffer.create (some 100) (some 100)).addColorTexture 0
    (some texUnit)).addDepthTexture (some texDepthW)

/-- Witness for the amended C2 at a concrete hole-free framebuffer. -/
theorem resize_changed_spec_witness :
    ((none : Option BaseTexture) ∉ fbFull.colorTextures) ∧
    ¬(jsMathCeil 200 = fbFull.width ∧ jsMathCeil 300 = fbFull.height) ∧
    (fbFull.resize 200 300).1.dirtySize = 1 ∧
    (⟨CallTarget.color 0, 200, 300⟩ : SetSizeCall) ∈
      (fbFull.resize 200 300).2.1 := by
  have h := resize_changed_spec fbFull 200 300 (by decide) (by decide)
  refine ⟨by decide, by decide, h.2.2.2.1.trans (by decide), ?_⟩
  have hm := h.2.2.2.2.2.2.1 0 texUnit (by decide)
  have h200 : jsMathCeil 200 = 200 := by decide
  have h300 : jsMathCeil 300 = 300 := by decide
  simpa [texUnit, h200, h300] using hm

/-- C4 as stated is false: a size-changing resize on a framebuffer whose
colour array has a hole does not complete without error — the read of
`resolution` on the absent entry throws a `TypeError`. -/
theorem resize_hole_counterexample :
    ((none : Option BaseTexture) ∈ fbHole.colorTextures) ∧
    ¬(jsMathCeil 300 = fbHole.width ∧ jsMathCeil 300 = fbHole.height) ∧
    (fbHole.resize 300 300).2.2 = false := by decide

/-- C4 (amended): on a colour array with a hole, a size-changing resize
still stores the new dimensions and bumps `dirtyId`/`dirtySize` (these
precede the loop), makes `setSize` calls exactly on the present textures
before the first hole, then fails with a `TypeError` at the hole; the depth
texture is never reached. -/
theorem resize_hole_spec (fb : Framebuffer) (w h : ℚ)
    (hhole : (none : Option BaseTexture) ∈ fb.colorTextures)
    (hne : ¬(jsMathCeil w = fb.width ∧ jsMathCeil h = fb.height)) :
    (fb.resize w h).2.2 = false ∧
    (fb.resize w h).1.width = jsMathCeil w ∧
    (fb.resize w h).1.height = jsMathCeil h ∧
    (fb.resize w h).1.dirtyId = fb.dirtyId + 1 ∧
    (fb.resize w h).1.dirtySize = fb.dirtySize + 1 ∧
    (fb.resize w h).2.1 =
      colorCalls (jsMathCeil w) (jsMathCeil h) 0
        (leadingPresent fb.colorTextures) ∧
    (fb.resize w h).1.depthTexture = fb.depthTexture := by
  have hok : (resizeColors (jsMathCeil w) (jsMathCeil h) 0
      fb.colorTextures).2.2 = false := by
    cases hb : (resizeColors (jsMathCeil w) (jsMathCeil h) 0
        fb.colorTextures).2.2 with
    | false => rfl
    | true => exact absurd hhole ((resizeColors_ok_iff _ _ _ _).mp hb)
  rw [resize_ne_spec fb w h hne, hok]
  refine ⟨rfl, rfl, rfl, rfl, rfl, ?_, ?_⟩
  · simp [resizeColors_calls_eq]
  · simp

/-- Witness for the amended C4 at a concrete holed framebuffer. -/
theorem resize_hole_spec_witness :
    ((none : Option BaseTexture) ∈ fbHole.colorTextures) ∧
    ¬(jsMathCeil 400 = fbHole.width ∧ jsMathCeil 400 = fbHole.height) ∧
    (fbHole.resize 400 400).2.2 = false ∧
    (fbHole.resize 400 400).2.1 = [] := by
  have h := resize_hole_spec fbHole 400 400 (by decide) (by decide)
  exact ⟨by decide, by decide, h.1, h.2.2.2.2.2.1.trans (by decide)⟩

/-- `true` unless the operation is a resize with a non-positive argument. -/
def Op.posResizeArgs : Op → Bool
  | .resize w h => decide (0 < w) && decide (0 < h)
  | _ => true

/-- One operation with positive resize arguments preserves positivity of
the stored dimensions. -/
theorem applyOp_pos (fb : Framebuffer) (op : Op) (hw : 0 < fb.width)
    (hh : 0 < fb.height) (hop : op.posResizeArgs = true) :
    0 < (applyOp fb op).width ∧ 0 < (applyOp fb op).height := by
  cases op with
  | addColor i t => exact ⟨hw, hh⟩
  | addDepth t => exact ⟨hw, hh⟩
  | enableDepth => exact ⟨hw, hh⟩
  | enableStencil => exact ⟨hw, hh⟩
  | resize w h =>
      simp only [Op.posResizeArgs, Bool.and_eq_true, decide_eq_true_eq] at hop
      by_cases hcs : jsMathCeil w = fb.width ∧ jsMathCeil h = fb.height
      · simp only [applyOp]
        rw [resize_eq_of_eq fb w h hcs]
        exact ⟨hw, hh⟩
      · simp only [applyOp]
        rw [resize_ne_spec fb w h hcs]
        exact ⟨jsMathCeil_pos hop.1, jsMathCeil_pos hop.2⟩
  | destroyDepth =>
      cases hd : fb.depthTexture <;>
        simp [applyOp, Framebuffer.destroyDepthTexture, hd] <;>
          exact ⟨hw, hh⟩

/-- Positivity of the dimensions is preserved along any sequence of
operations whose resizes have positive arguments. -/
theorem applyOps_pos (ops : List Op)
    (hops : ∀ op ∈ ops, op.posResizeArgs = true) :
    ∀ fb : Framebuffer, 0 < fb.width → 0 < fb.height →
      0 < (applyOps fb ops).width ∧ 0 < (applyOps fb ops).height := by
  induction ops with
  | nil => exact fun fb hw hh => ⟨hw, hh⟩
  | cons op rest ih =>
      intro fb hw hh
      have hop : op.posResizeArgs = true := hops op (List.mem_cons_self _ _)
      have hrest : ∀ o ∈ rest, o.posResizeArgs = true := fun o ho =>
        hops o (List.mem_cons_of_mem _ ho)
      have h1 := applyOp_pos fb op hw hh hop
      exact ih hrest (applyOp fb op) h1.1 h1.2

/-- C5 as stated is false: a negative construction argument is truthy, so
it is not replaced by 100 and its ceiling, a negative number, is stored;
and a resize to (0, 0) stores 0. -/
theorem dimensions_positive_counterexample :
    (Framebuffer.create (some (-5)) (some 10)).width = -5 ∧
    ¬(0 < (Framebuffer.create (some (-5)) (some 10)).width) ∧
    ((Framebuffer.create none none).resize 0 0).1.width = 0 ∧
    ¬(0 < ((Framebuffer.create none none).resize 0 0).1.width) := by decide

/-- C5 (amended): when every construction argument is omitted or
non-negative and every resize argument is strictly positive, the stored
width and height are always positive (and by construction they are always
integers). -/
theorem dimensions_positive_spec (w h : Option ℚ)
    (hw : ∀ v ∈ w, 0 ≤ v) (hh : ∀ v ∈ h, 0 ≤ v)
    (ops : List Op) (hops : ∀ op ∈ ops, op.posResizeArgs = true) :
    0 < (applyOps (Framebuffer.create w h) ops).width ∧
    0 < (applyOps (Framebuffer.create w h) ops).height := by
  have hbase : ∀ x : Option ℚ, (∀ v ∈ x, 0 ≤ v) →
      0 < jsMathCeil (jsOr x 100) := by
    intro x hx
    apply jsMathCeil_pos
    cases x with
    | none => norm_num [jsOr]
    | some v =>
        by_cases hv : v = 0
        · norm_num [jsOr, hv]
        · have h0 : (0 : ℚ) ≤ v := hx v rfl
          simp only [jsOr, if_neg hv]
          exact lt_of_le_of_ne h0 (Ne.symm hv)
  exact applyOps_pos ops hops _ (hbase w hw) (hbase h hh)

/-- Witness for the amended C5 at concrete inputs. -/
theorem dimensions_positive_spec_witness :
    (∀ v ∈ (some (50 : ℚ)), 0 ≤ v) ∧ (∀ v ∈ (none : Option ℚ), 0 ≤ v) ∧
    (∀ op ∈ [Op.resize 7 9, Op.enableDepth], op.posResizeArgs = true) ∧
    0 < (applyOps (Framebuffer.create (some 50) none)
      [Op.resize 7 9, Op.enableDepth]).width :=
  ⟨fun v hv => by simp at hv; subst hv; decide,
   fun v hv => by simp at hv,
   by decide,
   (dimensions_positive_spec (some 50) none
      (fun v hv => by simp at hv; subst hv; decide)
      (fun v hv => by simp at hv)
      [Op.resize 7 9, Op.enableDepth] (by decide)).1⟩
